import Mathlib

/-!
Verification of the go-pia port-forwarding service against its design
specification.  The Go sources are shallowly embedded as executable Lean
definitions: file and network effects become explicit parameters (the
content read, the response received), and every embedded function keeps
the control flow of its Go counterpart.  Claims from the specification
are then settled as theorems about these definitions.
-/

namespace GoPia

/-! ## String helpers shared by the embeddings -/

/-- Characters treated as whitespace by strings.Fields (the source only
ever sees spaces and tabs in the inputs of interest). -/
def isGoSpace (c : Char) : Bool :=
  c = ' ' ∨ c = '\t' ∨ c = '\n' ∨ c = '\r'

/-- Split a character list at every separator character, keeping empty
pieces, like strings.Split with a one-character separator. -/
def splitCharsAux (p : Char → Bool) : List Char → List Char → List String
  | [], acc => [⟨acc.reverse⟩]
  | c :: rest, acc =>
    if p c then ⟨acc.reverse⟩ :: splitCharsAux p rest []
    else splitCharsAux p rest (c :: acc)

/-- Model of strings.Fields: split around maximal runs of whitespace. -/
def strFields (s : String) : List String :=
  (splitCharsAux (fun c => isGoSpace c) s.data []).filter (fun t => t ≠ "")

/-- Test whether the second character list begins the first. -/
def charsBegin : List Char → List Char → Bool
  | _, [] => true
  | [], _ :: _ => false
  | c :: cs, p :: ps => c = p && charsBegin cs ps

/-- Test whether the second character list occurs inside the first. -/
def charsInside : List Char → List Char → Bool
  | [], pat => pat.isEmpty
  | l@(_ :: rest), pat => charsBegin l pat || charsInside rest pat

/-- Model of strings.HasPrefix. -/
def strHasPre (s pre : String) : Bool :=
  charsBegin s.data pre.data

/-- Numeric value of a list of decimal digit characters. -/
def digitsVal (l : List Char) : Nat :=
  l.foldl (fun n c => n * 10 + (c.toNat - 48)) 0

/-- Model of bufio.Scanner with ScanLines: tokens are the text between
newlines, with one trailing carriage return stripped from each token and
no empty token after a final newline. -/
def scanLinesChars : List Char → String → List String
  | [], line => if line = "" then [] else [line]
  | c :: rest, line =>
    if c = '\n' then
      (if line.data.getLast? = some '\r' then ⟨line.data.dropLast⟩ else line)
        :: scanLinesChars rest ""
    else scanLinesChars rest (line.push c)

/-- Lines of a file as bufio.Scanner yields them. -/
def scanLines (s : String) : List String :=
  scanLinesChars s.data ""

/-! ## Package config: splitLines and LoadCredentials

Embedded from src/unnamed/part_003 (package config).  File reading is
abstracted into the `Except`-valued argument: `Except.error` is a failed
os.ReadFile, `Except.ok data` is the file content. -/

/-- Loop body of config.splitLines: walk the characters, ignoring every
carriage return, and close the current line at each newline.  Returns
the closed lines together with the still-open final accumulator. -/
def splitLinesLoop : List Char → String → List String × String
  | [], line => ([], line)
  | c :: rest, line =>
    if c = '\r' then splitLinesLoop rest line
    else if c = '\n' then
      let p := splitLinesLoop rest ""
      (line :: p.1, p.2)
    else splitLinesLoop rest (line.push c)

/-- Embedding of config.splitLines.  The Go code checks the last byte of
the string; for the carriage-return and newline bytes this coincides
with the last character, which is what the embedding checks. -/
def splitLines (s : String) : List String :=
  let p := splitLinesLoop s.data ""
  if p.2 ≠ "" ∨ (s ≠ "" ∧ (s.data.getLast? = some '\n' ∨ s.data.getLast? = some '\r')) then
    p.1 ++ [p.2]
  else p.1

/-- Embedding of Config.LoadCredentials: read the file, split it into
lines, and require at least two lines (username, then password). -/
def LoadCredentials (readResult : Except String String) : Except String (String × String) :=
  match readResult with
  | Except.error e => Except.error ("failed to read credentials file: " ++ e)
  | Except.ok data =>
    match splitLines data with
    | u :: p :: _ => Except.ok (u, p)
    | _ => Except.error "invalid credentials file format: expected at least 2 lines"

/-- Characters of a text after rewriting every newline into a
carriage-return newline pair (Windows line endings). -/
def crlfChars (l : List Char) : List Char :=
  l.flatMap (fun c => if c = '\n' then ['\r', '\n'] else [c])

/-- Windows-line-ending rendering of a string. -/
def withCRLF (s : String) : String :=
  ⟨crlfChars s.data⟩

/-! ## Package vpn

Embedded from src/internal/vpn/vpn.go.  The three effectful probes are
abstracted into arguments: the interface listing (`none` models a
net.Interfaces error), the text printed by the ip route command (`none`
models a command failure), and the OpenVPN configuration file content
(`none` models an unreadable file). -/

/-- Model of strings.Contains. -/
def strContains (s sub : String) : Bool :=
  charsInside s.data sub.data

/-- Connection information produced by the vpn package. -/
structure ConnectionInfo where
  GatewayIP : String
  Hostname : String
deriving DecidableEq

/-- Embedding of vpn.hasTunInterface: true exactly when the interface
enumeration succeeded and some interface name starts with tun. -/
def hasTunInterface (interfaces : Option (List String)) : Bool :=
  match interfaces with
  | none => false
  | some l => l.any (fun name => strHasPre name "tun")

/-- Loop body of vpn.getVPNGatewayIP: scan the route lines for one that
mentions tun and has at least three whitespace fields, and return its
third field. -/
def gatewayLoop : List String → Except String String
  | [] => Except.error "VPN gateway IP not found in routing table"
  | line :: rest =>
    if strContains line "tun" then
      if h : 3 ≤ (strFields line).length then
        Except.ok ((strFields line).get ⟨2, by omega⟩)
      else gatewayLoop rest
    else gatewayLoop rest

/-- Embedding of vpn.getVPNGatewayIP. -/
def getVPNGatewayIP (routeOutput : Option String) : Except String String :=
  match routeOutput with
  | none => Except.error "failed to get routing table"
  | some out => gatewayLoop (scanLines out)

/-- Digits check for one dotted-quad field of an IPv4 literal, as
net.ParseIP accepts it: one to three digits, value at most 255, no
leading zero.  Models the Go standard library (an external
collaborator of the vpn package). -/
def validV4Field (s : String) : Bool :=
  s ≠ "" && s.data.length ≤ 3 && s.data.all (fun c => c.isDigit) &&
    (s.data.length = 1 || s.data.head? ≠ some '0') && digitsVal s.data ≤ 255

/-- Model of the dotted-quad branch of net.ParseIP. -/
def parseIPv4 (s : String) : Bool :=
  let parts := splitCharsAux (fun c => c = '.') s.data []
  parts.length = 4 && parts.all validV4Field

/-- Hexadecimal group of an IPv6 literal: one to four hex digits. -/
def validHexGroup (s : String) : Bool :=
  s ≠ "" && s.data.length ≤ 4 &&
    s.data.all (fun c => c.isDigit || ('a' ≤ c && c ≤ 'f') || ('A' ≤ c && c ≤ 'F'))

/-- Split a character list at each non-overlapping double colon. -/
def splitDoubleColon : List Char → List Char → List (List Char)
  | [], acc => [acc.reverse]
  | ':' :: ':' :: rest, acc => acc.reverse :: splitDoubleColon rest []
  | c :: rest, acc => splitDoubleColon rest (c :: acc)

/-- Pieces of an IPv6 side between single colons. -/
def colonParts (l : List Char) : List String :=
  splitCharsAux (fun c => c = ':') l []

/-- Count of 16-bit groups contributed by a colon-separated part list,
allowing a trailing embedded IPv4 literal (worth two groups); none when
some part is malformed. -/
def v6Groups : List String → Option Nat
  | [] => some 0
  | [s] => if parseIPv4 s then some 2 else if validHexGroup s then some 1 else none
  | s :: rest => if validHexGroup s then (v6Groups rest).map (· + 1) else none

/-- Count of 16-bit groups for a side that may not embed an IPv4
literal (everything left of a double colon). -/
def v6GroupsHexOnly (parts : List String) : Option Nat :=
  if parts.all validHexGroup then some parts.length else none

/-- Model of the colon branch of net.ParseIP: eight groups, or a single
double colon standing for at least one zero group. -/
def parseIPv6 (s : String) : Bool :=
  match splitDoubleColon s.data [] with
  | [whole] =>
    match v6Groups (colonParts whole) with
    | some 8 => true
    | _ => false
  | [left, right] =>
    let lparts := if left = [] then [] else colonParts left
    let rparts := if right = [] then [] else colonParts right
    match v6GroupsHexOnly lparts, v6Groups rparts with
    | some a, some b => a + b ≤ 7
    | _, _ => false
  | _ => false

/-- Model of net.ParseIP as a validity test: the first dot or colon in
the string selects the IPv4 or IPv6 grammar. -/
def parseIP (s : String) : Bool :=
  match s.data.find? (fun c => c = '.' || c = ':') with
  | some c => if c = '.' then parseIPv4 s else parseIPv6 s
  | none => false

/-- Embedding of vpn.constructHostname. -/
def constructHostname (ip : String) : String :=
  ip ++ ".privacy.network"

/-- Loop body of vpn.getVPNHostname: find a line with the literal
remote-and-space marker and at least two fields; append the provider
suffix when the address is an IP literal, keep it verbatim otherwise. -/
def hostnameLoop : List String → Except String String
  | [] => Except.error "VPN server hostname not found in OpenVPN config"
  | line :: rest =>
    if strHasPre line "remote " then
      if h : 2 ≤ (strFields line).length then
        let addr := (strFields line).get ⟨1, by omega⟩
        if parseIP addr then Except.ok (constructHostname addr)
        else Except.ok addr
      else hostnameLoop rest
    else hostnameLoop rest

/-- Embedding of vpn.getVPNHostname. -/
def getVPNHostname (configFile : Option String) : Except String String :=
  match configFile with
  | none => Except.error "failed to open OpenVPN config"
  | some content => hostnameLoop (scanLines content)

/-- Embedding of vpn.DetectOpenVPNConnection: require a tun interface,
extract the gateway from the routing table, and take the hostname from
the configuration file, falling back to a hostname built from the
gateway address when the file step fails. -/
def DetectOpenVPNConnection (interfaces : Option (List String))
    (routeOutput : Option String) (configFile : Option String) :
    Except String ConnectionInfo :=
  if hasTunInterface interfaces then
    match getVPNGatewayIP routeOutput with
    | Except.error e => Except.error ("failed to get VPN gateway IP: " ++ e)
    | Except.ok gatewayIP =>
      match getVPNHostname configFile with
      | Except.ok hostname => Except.ok ⟨gatewayIP, hostname⟩
      | Except.error _ => Except.ok ⟨gatewayIP, constructHostname gatewayIP⟩
  else
    Except.error "no active OpenVPN connection detected (no tun interface)"

/-- Remote directive recogniser used to state the hostname claim: a
line that starts with the remote marker and has an address field. -/
def remoteDirective (line : String) : Bool :=
  strHasPre line "remote " && decide (2 ≤ (strFields line).length)

/-- Address of the first remote directive of a configuration file. -/
def firstRemoteAddr (content : String) : Option String :=
  ((scanLines content).filter remoteDirective).head?.bind
    (fun line => (strFields line)[1]?)

/-- Hostname derivation rule of the specification: append the provider
suffix to IP literals, keep other addresses verbatim. -/
def hostnameRule (addr : String) : String :=
  if parseIP addr then addr ++ ".privacy.network" else addr

/-- Route entry recogniser used to state the gateway claim: a line
that references the tunnel interface and carries an address field. -/
def tunRouteEntry (line : String) : Bool :=
  strContains line "tun" && decide (3 ≤ (strFields line).length)

/-- Gateway of the first matching route entry of a routing table. -/
def firstTunRouteGateway (routeText : String) : Option String :=
  ((scanLines routeText).filter tunRouteEntry).head?.bind
    (fun line => (strFields line)[2]?)

/-- Success test for an Except value. -/
def exceptOk {ε α : Type} : Except ε α → Bool
  | Except.ok _ => true
  | Except.error _ => false

deriving instance DecidableEq for Except

/-! ## Package auth

Embedded from src/unnamed/part_001 (package auth).  Time is carried as
an integer number of seconds, and the credential exchange (one HTTP
POST to the token endpoint, body read and JSON parse included) is
abstracted into an `Except`-valued argument giving its outcome.  The
third component of each result counts the exchanges performed. -/

namespace Auth

/-- Validity duration of a token, 24 hours in seconds. -/
def TokenValidityDuration : Int := 24 * 60 * 60

/-- Response of the token endpoint. -/
structure TokenResponse where
  Token : String
  Error : String
deriving DecidableEq

/-- State of auth.Client: credentials plus the cached token. -/
structure Client where
  username : String
  password : String
  token : String
  expiresAt : Int
deriving DecidableEq

/-- Embedding of auth.NewClient: empty cache, zero expiry. -/
def NewClient (username password : String) : Client :=
  { username := username, password := password, token := "", expiresAt := 0 }

/-- Embedding of auth.Client.refreshToken: perform one exchange and, on
a clean response with a nonempty token, replace the cache and stamp the
new expiry. -/
def refreshToken (c : Client) (now : Int) (exchange : Except String TokenResponse) :
    Except String String × Client × Nat :=
  match exchange with
  | Except.error e => (Except.error ("failed to send request: " ++ e), c, 1)
  | Except.ok resp =>
    if resp.Error ≠ "" then (Except.error ("API error: " ++ resp.Error), c, 1)
    else if resp.Token = "" then (Except.error "received empty token", c, 1)
    else (Except.ok resp.Token,
      { c with token := resp.Token, expiresAt := now + TokenValidityDuration }, 1)

/-- Embedding of auth.Client.GetToken: return the cached token while it
is nonempty and unexpired, otherwise refresh. -/
def GetToken (c : Client) (now : Int) (exchange : Except String TokenResponse) :
    Except String String × Client × Nat :=
  if c.token ≠ "" ∧ now < c.expiresAt then (Except.ok c.token, c, 0)
  else refreshToken c now exchange

end Auth

/-! ## Package portforwarding: client construction and output file

Embedded from the portforwarding source (second document of
src/internal/portforwarding/portforwarding_test.go). -/

namespace PF

/-- TLS client configuration, as far as the source sets it. -/
structure TLSConfig where
  InsecureSkipVerify : Bool
deriving DecidableEq

/-- HTTP transport carrying the TLS configuration. -/
structure Transport where
  tlsClientConfig : TLSConfig
deriving DecidableEq

/-- HTTP client: transport plus timeout in seconds. -/
structure HTTPClient where
  transport : Transport
  timeoutSeconds : Nat
deriving DecidableEq

/-- State of portforwarding.Client; getSignature and BindPort send
their requests through httpClient. -/
structure Client where
  httpClient : HTTPClient
  token : String
  gatewayIP : String
  hostname : String
  caCertPath : String
deriving DecidableEq

/-- Embedding of portforwarding.NewClient: the TLS configuration is
built with InsecureSkipVerify set to true and the CA certificate path
is merely stored. -/
def NewClient (token gatewayIP hostname caCertPath : String) : Client :=
  { httpClient :=
      { transport := { tlsClientConfig := { InsecureSkipVerify := true } },
        timeoutSeconds := 10 },
    token := token, gatewayIP := gatewayIP,
    hostname := hostname, caCertPath := caCertPath }

/-- Quote character, written by code point to keep string scanning
simple. -/
def quoteChar : Char := Char.ofNat 34

/-- Backslash character. -/
def backslashChar : Char := Char.ofNat 92

/-- Opening brace character. -/
def lbraceChar : Char := Char.ofNat 123

/-- Closing brace character. -/
def rbraceChar : Char := Char.ofNat 125

/-- Value of one character of the standard base64 alphabet. -/
def b64Val (c : Char) : Option Nat :=
  if 'A' ≤ c ∧ c ≤ 'Z' then some (c.toNat - 65)
  else if 'a' ≤ c ∧ c ≤ 'z' then some (c.toNat - 97 + 26)
  else if '0' ≤ c ∧ c ≤ '9' then some (c.toNat - 48 + 52)
  else if c = '+' then some 62
  else if c = '/' then some 63
  else none

/-- Decode base64 quanta of four characters each; padding may occur
only in the final quantum, and an incomplete quantum is an error.
Models base64.StdEncoding decoding (an external collaborator). -/
def b64Quanta : List Char → Option (List Nat)
  | [] => some []
  | c1 :: c2 :: c3 :: c4 :: rest =>
    match b64Val c1, b64Val c2 with
    | some v1, some v2 =>
      if c3 = '=' then
        if c4 = '=' ∧ rest = [] then some [v1 * 4 + v2 / 16]
        else none
      else
        match b64Val c3 with
        | some v3 =>
          if c4 = '=' then
            if rest = [] then some [v1 * 4 + v2 / 16, (v2 % 16) * 16 + v3 / 4]
            else none
          else
            match b64Val c4 with
            | some v4 =>
              (b64Quanta rest).map
                (fun tl => (v1 * 4 + v2 / 16) :: ((v2 % 16) * 16 + v3 / 4)
                  :: ((v3 % 4) * 64 + v4) :: tl)
            | none => none
        | none => none
    | _, _ => none
  | _ => none

/-- Model of base64.StdEncoding.DecodeString: newline characters are
skipped, everything else must form full quanta over the alphabet. -/
def base64Decode (s : String) : Option (List Nat) :=
  b64Quanta (s.data.filter (fun c => c ≠ '\r' ∧ c ≠ '\n'))

/-- JSON values occurring in the responses of interest: strings without
escape sequences and integers. -/
inductive JVal where
  | jstr (s : String)
  | jnum (n : Int)
deriving DecidableEq

/-- Skip JSON whitespace. -/
def skipWS : List Char → List Char
  | [] => []
  | c :: rest =>
    if c = ' ' ∨ c = '\t' ∨ c = '\n' ∨ c = '\r' then skipWS rest else c :: rest

/-- Parse the remainder of a JSON string literal after its opening
quote; escape sequences are not modelled and are rejected. -/
def parseJStr : List Char → Option (String × List Char)
  | [] => none
  | c :: rest =>
    if c = quoteChar then some ("", rest)
    else if c = backslashChar then none
    else (parseJStr rest).map (fun p => (⟨c :: p.1.data⟩, p.2))

/-- Parse a JSON integer; fractional or exponent forms are rejected, as
json.Unmarshal rejects them for an int target. -/
def parseJNum (input : List Char) : Option (JVal × List Char) :=
  let neg := input.head? = some '-'
  let rest := if neg then input.tail else input
  let ds := rest.takeWhile Char.isDigit
  let r2 := rest.dropWhile Char.isDigit
  if ds = [] then none
  else if 1 < ds.length ∧ ds.head? = some '0' then none
  else if r2.head? = some '.' ∨ r2.head? = some 'e' ∨ r2.head? = some 'E' then none
  else some (JVal.jnum (if neg then -(digitsVal ds : Int) else (digitsVal ds : Int)), r2)

/-- Parse one JSON value of the modelled forms. -/
def parseJVal (input : List Char) : Option (JVal × List Char) :=
  match input with
  | [] => none
  | c :: rest =>
    if c = quoteChar then (parseJStr rest).map (fun p => (JVal.jstr p.1, p.2))
    else if c = '-' ∨ c.isDigit then parseJNum input
    else none

/-- Parse the members of a JSON object, positioned at the first key;
the fuel bounds the recursion and is always sufficient when it exceeds
the input length. -/
def parseMembers : Nat → List Char → Option (List (String × JVal) × List Char)
  | 0, _ => none
  | Nat.succ fuel, input =>
    match skipWS input with
    | [] => none
    | c :: rest =>
      if c = quoteChar then
        match parseJStr rest with
        | none => none
        | some (key, r1) =>
          match skipWS r1 with
          | ':' :: r2 =>
            match parseJVal (skipWS r2) with
            | none => none
            | some (v, r3) =>
              match skipWS r3 with
              | ',' :: r4 =>
                (parseMembers fuel r4).map (fun p => ((key, v) :: p.1, p.2))
              | d :: r4 => if d = rbraceChar then some ([(key, v)], r4) else none
              | [] => none
          | _ => none
      else none

/-- Parse a whole flat JSON object with nothing but whitespace after
it.  Models json.Unmarshal for the response shapes of interest. -/
def parseJsonObject (l : List Char) : Option (List (String × JVal)) :=
  match skipWS l with
  | [] => none
  | c :: rest =>
    if c = lbraceChar then
      match skipWS rest with
      | [] => none
      | d :: rest2 =>
        if d = rbraceChar then
          if skipWS rest2 = [] then some [] else none
        else
          match parseMembers (l.length + 1) (d :: rest2) with
          | some (ms, r) => if skipWS r = [] then some ms else none
          | none => none
    else none

/-- Field lookup with the json.Unmarshal rule that a repeated key keeps
its last occurrence. -/
def jsonField (obj : List (String × JVal)) (key : String) : Option JVal :=
  (obj.reverse.find? (fun kv => kv.1 == key)).map (fun kv => kv.2)

/-- Unmarshal a string field: missing means the zero value, a value of
another type is an error. -/
def jsonStrField (obj : List (String × JVal)) (key : String) : Except String String :=
  match jsonField obj key with
  | none => Except.ok ""
  | some (JVal.jstr s) => Except.ok s
  | some _ => Except.error ("cannot unmarshal field " ++ key)

/-- Unmarshal an int field: missing means zero, a value of another
type is an error. -/
def jsonIntField (obj : List (String × JVal)) (key : String) : Except String Int :=
  match jsonField obj key with
  | none => Except.ok 0
  | some (JVal.jnum n) => Except.ok n
  | some _ => Except.error ("cannot unmarshal field " ++ key)

/-- Time zone suffix of an RFC3339 timestamp. -/
def rfc3339Zone : List Char → Bool
  | ['Z'] => true
  | [c, h1, h2, ':', m1, m2] =>
    (c = '+' ∨ c = '-') && [h1, h2, m1, m2].all Char.isDigit &&
      digitsVal [h1, h2] ≤ 23 && digitsVal [m1, m2] ≤ 59
  | _ => false

/-- Optional fractional seconds followed by the zone. -/
def rfc3339FracZone (l : List Char) : Bool :=
  match l with
  | '.' :: rest =>
    rest.takeWhile Char.isDigit ≠ [] && rfc3339Zone (rest.dropWhile Char.isDigit)
  | _ => rfc3339Zone l

/-- Shape check for an RFC3339 timestamp, modelling the parse done by
time.Time unmarshalling (day-in-month precision is not modelled). -/
def rfc3339Valid (l : List Char) : Bool :=
  match l with
  | y1 :: y2 :: y3 :: y4 :: '-' :: m1 :: m2 :: '-' :: d1 :: d2 :: 'T'
      :: h1 :: h2 :: ':' :: n1 :: n2 :: ':' :: s1 :: s2 :: rest =>
    [y1, y2, y3, y4, m1, m2, d1, d2, h1, h2, n1, n2, s1, s2].all Char.isDigit &&
      1 ≤ digitsVal [m1, m2] && digitsVal [m1, m2] ≤ 12 &&
      1 ≤ digitsVal [d1, d2] && digitsVal [d1, d2] ≤ 31 &&
      digitsVal [h1, h2] ≤ 23 && digitsVal [n1, n2] ≤ 59 && digitsVal [s1, s2] ≤ 59 &&
      rfc3339FracZone rest
  | _ => false

/-- Unmarshal a time field: a missing field keeps the zero time, any
other shape than a valid RFC3339 string is an error; the validated
text itself represents the parsed instant. -/
def jsonTimeField (obj : List (String × JVal)) (key : String) : Except String String :=
  match jsonField obj key with
  | none => Except.ok "0001-01-01T00:00:00Z"
  | some (JVal.jstr s) =>
    if rfc3339Valid s.data then Except.ok s
    else Except.error ("parsing time " ++ s)
  | some _ => Except.error ("cannot unmarshal field " ++ key)

/-- Response of the getSignature endpoint. -/
structure PayloadAndSignature where
  Status : String
  Payload : String
  Signature : String
deriving DecidableEq

/-- Decoded payload data: the port and the expiry instant (kept as its
validated RFC3339 text). -/
structure PayloadData where
  Port : Int
  ExpiresAt : String
deriving DecidableEq

/-- Port forwarding information assembled by GetPortForwarding. -/
structure PortForwardingInfo where
  Port : Int
  ExpiresAt : String
  Payload : String
  Signature : String
deriving DecidableEq

/-- Embedding of portforwarding.decodePayload: base64-decode the
payload and parse the resulting bytes as JSON carrying port and
expires_at.  The decoded bytes are read as characters, which is exact
for the ASCII payloads the endpoint produces. -/
def decodePayload (payload : String) : Except String PayloadData :=
  match base64Decode payload with
  | none => Except.error "failed to decode payload from base64"
  | some bytes =>
    match parseJsonObject (bytes.map (fun b => Char.ofNat b)) with
    | none => Except.error "failed to parse payload JSON"
    | some obj =>
      match jsonIntField obj "port", jsonTimeField obj "expires_at" with
      | Except.ok port, Except.ok expiresAt => Except.ok ⟨port, expiresAt⟩
      | Except.error e, _ => Except.error ("failed to parse payload JSON: " ++ e)
      | _, Except.error e => Except.error ("failed to parse payload JSON: " ++ e)

/-- Embedding of portforwarding.Client.getSignature.  The transport
argument is the outcome of the HTTPS exchange the client performs: an
error models a transport failure, a success carries the response body.
The body is unmarshalled and the status field must equal OK. -/
def getSignature (c : Client) (transport : Except String String) :
    Except String PayloadAndSignature :=
  match transport with
  | Except.error e => Except.error ("failed to send request: " ++ e)
  | Except.ok body =>
    match parseJsonObject body.data with
    | none => Except.error "failed to parse response"
    | some obj =>
      match jsonStrField obj "status", jsonStrField obj "payload",
          jsonStrField obj "signature" with
      | Except.ok st, Except.ok p, Except.ok sg =>
        if st ≠ "OK" then Except.error ("failed to get signature: status=" ++ st)
        else Except.ok ⟨st, p, sg⟩
      | Except.error e, _, _ => Except.error ("failed to parse response: " ++ e)
      | _, Except.error e, _ => Except.error ("failed to parse response: " ++ e)
      | _, _, Except.error e => Except.error ("failed to parse response: " ++ e)

/-- Embedding of portforwarding.Client.GetPortForwarding: obtain the
payload and signature, decode the payload, and assemble the result
with the raw payload and signature fields unmodified. -/
def GetPortForwarding (c : Client) (transport : Except String String) :
    Except String PortForwardingInfo :=
  match getSignature c transport with
  | Except.error e => Except.error ("failed to get signature: " ++ e)
  | Except.ok payloadAndSig =>
    match decodePayload payloadAndSig.Payload with
    | Except.error e => Except.error ("failed to decode payload: " ++ e)
    | Except.ok payloadData =>
      Except.ok ⟨payloadData.Port, payloadData.ExpiresAt,
        payloadAndSig.Payload, payloadAndSig.Signature⟩

/-- Decimal rendering of a Go int, as the %d format verb prints it. -/
def goIntString (n : Int) : String :=
  toString n

/-- Observable contents of a file over an in-place os.WriteFile: the
previous content, then the empty file left by the truncating open, then
every prefix of the new content as the bytes are written. -/
def writeFileStates (old newContent : String) : List (List Char) :=
  old.data :: (List.range (newContent.data.length + 1)).map (fun k => newContent.data.take k)

/-- Embedding of portforwarding.WritePortToFile as the trace of file
contents an external reader can observe while it runs; the directory
creation that precedes the write does not touch the file. -/
def WritePortToFileTrace (old : String) (port : Int) : List (List Char) :=
  writeFileStates old (goIntString port)

end PF

/-! ## Package main: detection retry and the steady loop

Embedded from the main package source (later documents of
src/README.md).  Waits and channel operations are rendered by explicit
per-tick inputs; the goroutine structure collapses into the sequential
loop body it runs. -/

namespace Main

/-- Outcome of one run of main.detectVPNWithRetry over a finite horizon
of detection attempts: the returned value when the loop exits inside
the horizon, the number of detection calls performed, and the waits the
loop began (each of the configured retry interval). -/
structure RetryRun where
  result : Option (Except String ConnectionInfo)
  calls : Nat
  waits : List Int
deriving DecidableEq

/-- Embedding of main.detectVPNWithRetry.  attempts lists the outcome
each successive call to vpn.DetectOpenVPNConnection would produce;
cancelled tells whether the context is done during the wait after the
given failed attempt, in which case the wait is interrupted and the
loop returns at once with the detection error wrapped in the
cancellation message. -/
def detectVPNWithRetry (interval : Int) (cancelled : Nat → Bool) :
    List (Except String ConnectionInfo) → Nat → RetryRun
  | [], _ => ⟨none, 0, []⟩
  | r :: rest, k =>
    match r with
    | Except.ok connInfo => ⟨some (Except.ok connInfo), 1, []⟩
    | Except.error lastErr =>
      if cancelled k then
        ⟨some (Except.error ("VPN detection canceled: " ++ lastErr)), 1, [interval]⟩
      else
        let run := detectVPNWithRetry interval cancelled rest (k + 1)
        ⟨run.result, run.calls + 1, interval :: run.waits⟩

/-- Lease state carried by the steady loop; the expiry is an instant in
seconds. -/
structure SteadyLease where
  Port : Int
  ExpiresAt : Int
  Payload : String
  Signature : String
deriving DecidableEq

/-- Per-tick input of the steady loop: the current time, the outcome a
GetPortForwarding call would produce this tick, and whether the bind
and the output write succeed. -/
structure TickInput where
  now : Int
  refreshResult : Except String SteadyLease
  bindOK : Bool
  writeOK : Bool
deriving DecidableEq

/-- Mutable state of main.runPortForwardingLoop: the current lease, the
port remembered for change detection, and the pending change flag. -/
structure LoopState where
  pfInfo : SteadyLease
  initialPort : Int
  portChanged : Bool
deriving DecidableEq

/-- Observable effects of one tick: the port successfully bound (none
on bind failure), the port written to the output file (none when the
bind or the write failed), and whether the automation script ran. -/
structure TickOutput where
  bound : Option Int
  wrote : Option Int
  scriptRun : Bool
deriving DecidableEq

/-- Twenty-four hours in seconds, the near-expiry threshold. -/
def hours24 : Int := 24 * 60 * 60

/-- Embedding of main.refreshPortForwarding: on success replace the
lease, set the change flag by comparing against the remembered port,
and remember the new port; on failure keep everything. -/
def refreshPortForwarding (s : LoopState) (result : Except String SteadyLease) : LoopState :=
  match result with
  | Except.error _ => s
  | Except.ok newPfInfo =>
    { pfInfo := newPfInfo
      initialPort := newPfInfo.Port
      portChanged := decide (newPfInfo.Port ≠ s.initialPort) }

/-- One iteration of main.runPortForwardingLoop: refresh the signature
when the lease expires within twenty-four hours, bind, and on a
successful bind write the output file and run the script exactly when
the write succeeded, a script is configured, and the change flag is
set, then clear the flag. -/
def stepTick (scriptConfigured : Bool) (s : LoopState) (i : TickInput) :
    LoopState × TickOutput :=
  let s1 := if i.now + hours24 > s.pfInfo.ExpiresAt
    then refreshPortForwarding s i.refreshResult
    else s
  if i.bindOK then
    ({ s1 with portChanged := false },
     { bound := some s1.pfInfo.Port
       wrote := if i.writeOK then some s1.pfInfo.Port else none
       scriptRun := i.writeOK && scriptConfigured && s1.portChanged })
  else
    (s1, { bound := none, wrote := none, scriptRun := false })

/-- The steady loop over a finite list of tick inputs. -/
def runLoop (scriptConfigured : Bool) (s : LoopState) : List TickInput → List TickOutput
  | [] => []
  | i :: rest =>
    let p := stepTick scriptConfigured s i
    p.2 :: runLoop scriptConfigured p.1 rest

/-- Loop state after the initial GetPortForwarding call: the change
flag starts set so that the first successful bind runs the script. -/
def initialState (lease : SteadyLease) : LoopState :=
  { pfInfo := lease, initialPort := lease.Port, portChanged := true }

/-- Port a tick output bound, defaulting to zero. -/
def outPort (o : TickOutput) : Int :=
  o.bound.getD 0

/-- Change flags of a port sequence against a previous port: true
exactly where the port differs from its predecessor. -/
def changeFlags (prev : Int) : List Int → List Bool
  | [] => []
  | p :: rest => decide (p ≠ prev) :: changeFlags p rest

/-- Expected script decisions: the first tick fires, later ticks fire
exactly on a change of port. -/
def firstAlwaysFlags : List Int → List Bool
  | [] => []
  | p :: rest => true :: changeFlags p rest

end Main

end GoPia

namespace GoPia

/-! ## Theorems for claim C10 -/

theorem crlfChars_cons (c : Char) (l : List Char) :
    crlfChars (c :: l) = (if c = '\n' then ['\r', '\n'] else [c]) ++ crlfChars l := by
  simp [crlfChars]

theorem splitLinesLoop_cr (rest : List Char) (acc : String) :
    splitLinesLoop ('\r' :: rest) acc = splitLinesLoop rest acc := rfl

theorem splitLinesLoop_nl (rest : List Char) (acc : String) :
    splitLinesLoop ('\n' :: rest) acc
      = (acc :: (splitLinesLoop rest "").1, (splitLinesLoop rest "").2) := rfl

theorem splitLinesLoop_other {c : Char} (h1 : ¬c = '\r') (h2 : ¬c = '\n')
    (rest : List Char) (acc : String) :
    splitLinesLoop (c :: rest) acc = splitLinesLoop rest (acc.push c) := by
  simp [splitLinesLoop, h1, h2]

theorem splitLinesLoop_crlf (l : List Char) (acc : String) :
    splitLinesLoop (crlfChars l) acc = splitLinesLoop l acc := by
  induction l generalizing acc with
  | nil => rfl
  | cons c rest ih =>
    rw [crlfChars_cons]
    by_cases hc : c = '\n'
    · subst hc
      rw [if_pos rfl]
      show splitLinesLoop ('\r' :: '\n' :: crlfChars rest) acc = _
      rw [splitLinesLoop_cr, splitLinesLoop_nl, splitLinesLoop_nl, ih]
    · rw [if_neg hc]
      by_cases hcr : c = '\r'
      · subst hcr
        show splitLinesLoop ('\r' :: crlfChars rest) acc = _
        rw [splitLinesLoop_cr, splitLinesLoop_cr, ih]
      · show splitLinesLoop (c :: crlfChars rest) acc = _
        rw [splitLinesLoop_other hcr hc, splitLinesLoop_other hcr hc, ih]

theorem crlfChars_ne_nil {l : List Char} (h : l ≠ []) : crlfChars l ≠ [] := by
  cases l with
  | nil => exact absurd rfl h
  | cons c rest =>
    by_cases hc : c = '\n' <;> simp [crlfChars, hc]

theorem crlfChars_getLast? (l : List Char) (h : '\r' ∉ l) :
    (crlfChars l).getLast? = l.getLast? := by
  induction l with
  | nil => rfl
  | cons c rest ih =>
    cases rest with
    | nil =>
      by_cases hc : c = '\n'
      · subst hc; rfl
      · simp [crlfChars, hc]
    | cons d rest2 =>
      have hne : crlfChars (d :: rest2) ≠ [] := crlfChars_ne_nil (by simp)
      have step : crlfChars (c :: d :: rest2)
          = (if c = '\n' then ['\r', '\n'] else [c]) ++ crlfChars (d :: rest2) := by
        simp [crlfChars]
      rw [step, List.getLast?_append_of_ne_nil _ hne]
      have hmem : '\r' ∉ (d :: rest2) := fun hm => h (List.mem_cons_of_mem _ hm)
      rw [ih hmem]
      have : (d :: rest2).getLast? = (c :: d :: rest2).getLast? := by
        simp [List.getLast?_cons_cons]
      exact this

/-- Claim C10: for every input string, splitLines discards carriage
returns, so a text written with Windows line endings splits into the
same lines as the same text with Unix line endings, and LoadCredentials
therefore yields the same username and password for both renderings. -/
theorem C10_splitLines_line_ending_invariance (s : String) (h : '\r' ∉ s.data) :
    splitLines (withCRLF s) = splitLines s ∧
    LoadCredentials (Except.ok (withCRLF s)) = LoadCredentials (Except.ok s) := by
  have hsplit : splitLines (withCRLF s) = splitLines s := by
    unfold splitLines
    have h1 : (withCRLF s).data = crlfChars s.data := rfl
    rw [h1, splitLinesLoop_crlf, crlfChars_getLast? s.data h]
    have hempty : withCRLF s = "" ↔ s = "" := by
      constructor
      · intro he
        cases s with
        | mk l =>
          cases l with
          | nil => rfl
          | cons c rest =>
            exfalso
            have : crlfChars (c :: rest) ≠ [] := crlfChars_ne_nil (by simp)
            exact this (congrArg String.data he)
      · intro he; subst he; rfl
    by_cases hs : s = ""
    · simp [hs, hempty]
    · simp [hs, hempty]
  refine ⟨hsplit, ?_⟩
  simp [LoadCredentials, hsplit]

/-- Witness for C10 at the credentials file used by the test-suite. -/
theorem C10_witness :
    splitLines (withCRLF "testuser\ntestpass") = splitLines "testuser\ntestpass" ∧
    LoadCredentials (Except.ok (withCRLF "testuser\ntestpass"))
      = LoadCredentials (Except.ok "testuser\ntestpass") :=
  C10_splitLines_line_ending_invariance "testuser\ntestpass" (by decide)

/-! ## Theorems for claims C6, C7 and C8 -/

theorem hostnameLoop_eq (lines : List String) :
    hostnameLoop lines
      = match (lines.filter remoteDirective).head?.bind (fun line => (strFields line)[1]?) with
        | some a => Except.ok (hostnameRule a)
        | none => Except.error "VPN server hostname not found in OpenVPN config" := by
  induction lines with
  | nil => rfl
  | cons line rest ih =>
    by_cases h1 : strHasPre line "remote " = true
    · by_cases h2 : 2 ≤ (strFields line).length
      · have hp : remoteDirective line = true := by
          simp [remoteDirective, h1, h2]
        have hget : (strFields line)[1]? = some ((strFields line).get ⟨1, by omega⟩) := by
          rw [List.getElem?_eq_getElem (by omega)]
          simp [List.get_eq_getElem]
        simp only [hostnameLoop, List.filter_cons, hp, if_pos rfl, List.head?_cons,
          Option.some_bind, hget, dif_pos h2, h1, if_true]
        simp only [hostnameRule, constructHostname, List.get_eq_getElem]
        by_cases hip : parseIP (strFields line)[1] = true <;> simp [hip]
      · have hp : remoteDirective line = false := by
          simp [remoteDirective, h2]
        simp only [hostnameLoop, List.filter_cons, hp]
        rw [dif_neg h2, if_pos h1, ih]
        simp
    · have hp : remoteDirective line = false := by
        simp [remoteDirective, h1]
      simp only [hostnameLoop, List.filter_cons, hp]
      rw [if_neg h1, ih]
      simp

theorem gatewayLoop_eq (lines : List String) :
    gatewayLoop lines
      = match (lines.filter tunRouteEntry).head?.bind (fun line => (strFields line)[2]?) with
        | some a => Except.ok a
        | none => Except.error "VPN gateway IP not found in routing table" := by
  induction lines with
  | nil => rfl
  | cons line rest ih =>
    by_cases h1 : strContains line "tun"
    · by_cases h2 : 3 ≤ (strFields line).length
      · have hp : tunRouteEntry line = true := by
          simp [tunRouteEntry, h1, h2]
        have hget : (strFields line)[2]? = some ((strFields line).get ⟨2, by omega⟩) := by
          rw [List.getElem?_eq_getElem (by omega)]
          simp [List.get_eq_getElem]
        simp only [gatewayLoop, List.filter_cons, hp, if_pos rfl, List.head?_cons,
          Option.some_bind, hget, dif_pos h2, h1, if_true, List.get_eq_getElem]
      · have hp : tunRouteEntry line = false := by
          simp [tunRouteEntry, h2]
        simp only [gatewayLoop, List.filter_cons, hp]
        rw [dif_neg h2, if_pos h1, ih]
        simp
    · have hp : tunRouteEntry line = false := by
        simp [tunRouteEntry, h1]
      simp only [gatewayLoop, List.filter_cons, hp]
      rw [if_neg h1, ih]
      simp

/-- Claim C6: the hostname comes from the first remote directive of the
configuration file, suffixed when the address is an IP literal and
verbatim otherwise, and when the file is unreadable or holds no remote
directive, detection still succeeds with the hostname built from the
gateway address and the provider suffix. -/
theorem C6_hostname_derivation (content : String) (iOpt : Option (List String))
    (route file : Option String) (gw : String)
    (htun : hasTunInterface iOpt = true)
    (hgw : getVPNGatewayIP route = Except.ok gw)
    (hfile : exceptOk (getVPNHostname file) = false) :
    (getVPNHostname (some content)
       = match firstRemoteAddr content with
         | some a => Except.ok (hostnameRule a)
         | none => Except.error "VPN server hostname not found in OpenVPN config") ∧
    DetectOpenVPNConnection iOpt route file
      = Except.ok ⟨gw, gw ++ ".privacy.network"⟩ := by
  constructor
  · show hostnameLoop (scanLines content) = _
    rw [hostnameLoop_eq]
    rfl
  · cases hhost : getVPNHostname file with
    | ok h => rw [hhost] at hfile; simp [exceptOk] at hfile
    | error e =>
      simp [DetectOpenVPNConnection, htun, hgw, hhost, constructHostname]

/-- Witness for C6: an IP-literal remote directive, and the fallback
when the configuration file is unreadable. -/
theorem C6_witness :
    (getVPNHostname (some "remote 10.1.2.3 1194 udp")
       = match firstRemoteAddr "remote 10.1.2.3 1194 udp" with
         | some a => Except.ok (hostnameRule a)
         | none => Except.error "VPN server hostname not found in OpenVPN config") ∧
    DetectOpenVPNConnection (some ["tun0"]) (some "default via 10.8.0.1 dev tun0") none
      = Except.ok ⟨"10.8.0.1", "10.8.0.1.privacy.network"⟩ :=
  C6_hostname_derivation "remote 10.1.2.3 1194 udp" (some ["tun0"])
    (some "default via 10.8.0.1 dev tun0") none "10.8.0.1"
    (by decide) (by decide) (by decide)

/-- Claim C7: tunnel presence holds exactly when some interface name
has the tun name start; an enumeration error or the absence of such an
interface makes detection fail with the same error, and the embedded
functions are total, so no input crashes them. -/
theorem C7_tun_presence (l : List String) (iOpt : Option (List String))
    (route file : Option String)
    (hno : hasTunInterface iOpt = false) :
    (hasTunInterface (some l) = true ↔ ∃ n ∈ l, strHasPre n "tun" = true) ∧
    hasTunInterface none = false ∧
    DetectOpenVPNConnection iOpt route file
      = Except.error "no active OpenVPN connection detected (no tun interface)" := by
  refine ⟨?_, rfl, ?_⟩
  · simp [hasTunInterface, List.any_eq_true]
  · simp [DetectOpenVPNConnection, hno]

/-- Witness for C7: an interface list with a tun entry satisfies the
presence test, and an enumeration error makes detection fail. -/
theorem C7_witness :
    (hasTunInterface (some ["eth0", "tun0"]) = true
       ↔ ∃ n ∈ ["eth0", "tun0"], strHasPre n "tun" = true) ∧
    hasTunInterface none = false ∧
    DetectOpenVPNConnection none (some "default via 10.8.0.1 dev tun0") none
      = Except.error "no active OpenVPN connection detected (no tun interface)" :=
  C7_tun_presence ["eth0", "tun0"] none (some "default via 10.8.0.1 dev tun0") none rfl

/-- Claim C8: the gateway returned is the address field of the first
route entry that references the tunnel interface (and carries an
address field), and extraction fails when no such entry exists. -/
theorem C8_gateway_extraction (routeText : String) :
    getVPNGatewayIP (some routeText)
      = match firstTunRouteGateway routeText with
        | some gw => Except.ok gw
        | none => Except.error "VPN gateway IP not found in routing table" := by
  show gatewayLoop (scanLines routeText) = _
  rw [gatewayLoop_eq]
  rfl

/-! ## Theorems for claim C3 -/

/-- Claim C3: from an invalid cache, the first GetToken call performs
exactly one exchange and caches its token; a second call before the
validity window has elapsed returns the identical token with no further
exchange, whatever the exchange oracle would answer, leaving the total
at one; a call at or after the expiry instant performs exactly one
additional exchange and returns the fresh token. -/
theorem C3_token_cache (c : Auth.Client) (t0 t1 t2 : Int)
    (r1 r2 : Auth.TokenResponse) (exch2 : Except String Auth.TokenResponse)
    (hmiss : ¬(c.token ≠ "" ∧ t0 < c.expiresAt))
    (hr1e : r1.Error = "") (hr1t : r1.Token ≠ "")
    (hr2e : r2.Error = "") (hr2t : r2.Token ≠ "")
    (ht1 : t1 < t0 + Auth.TokenValidityDuration)
    (ht2 : t0 + Auth.TokenValidityDuration ≤ t2) :
    (Auth.GetToken c t0 (Except.ok r1)).1 = Except.ok r1.Token ∧
    (Auth.GetToken c t0 (Except.ok r1)).2.2 = 1 ∧
    (Auth.GetToken (Auth.GetToken c t0 (Except.ok r1)).2.1 t1 exch2).1
      = Except.ok r1.Token ∧
    (Auth.GetToken (Auth.GetToken c t0 (Except.ok r1)).2.1 t1 exch2).2.2 = 0 ∧
    (Auth.GetToken (Auth.GetToken c t0 (Except.ok r1)).2.1 t1 exch2).2.1
      = (Auth.GetToken c t0 (Except.ok r1)).2.1 ∧
    (Auth.GetToken (Auth.GetToken c t0 (Except.ok r1)).2.1 t2 (Except.ok r2)).1
      = Except.ok r2.Token ∧
    (Auth.GetToken (Auth.GetToken c t0 (Except.ok r1)).2.1 t2 (Except.ok r2)).2.2 = 1 := by
  have hfirst : Auth.GetToken c t0 (Except.ok r1)
      = (Except.ok r1.Token,
         { c with
           token := r1.Token
           expiresAt := t0 + Auth.TokenValidityDuration }, 1) := by
    rw [Auth.GetToken, if_neg hmiss]
    rw [Auth.refreshToken]
    simp [hr1e, hr1t]
  rw [hfirst]
  have hsecond : Auth.GetToken
      { c with
        token := r1.Token
        expiresAt := t0 + Auth.TokenValidityDuration } t1 exch2
      = (Except.ok r1.Token,
         { c with
           token := r1.Token
           expiresAt := t0 + Auth.TokenValidityDuration }, 0) := by
    rw [Auth.GetToken, if_pos ⟨hr1t, ht1⟩]
  have hthird : Auth.GetToken
      { c with
        token := r1.Token
        expiresAt := t0 + Auth.TokenValidityDuration } t2 (Except.ok r2)
      = (Except.ok r2.Token,
         { c with
           token := r2.Token
           expiresAt := t2 + Auth.TokenValidityDuration }, 1) := by
    rw [Auth.GetToken, if_neg (by simp; intro _; omega)]
    rw [Auth.refreshToken]
    simp [hr2e, hr2t]
  rw [hsecond, hthird]
  exact ⟨rfl, rfl, rfl, rfl, rfl, rfl, rfl⟩

/-- Witness for C3 on a fresh client with two concrete responses. -/
theorem C3_witness :
    (Auth.GetToken (Auth.NewClient "u" "p") 0 (Except.ok ⟨"tokA", ""⟩)).1
      = Except.ok ("tokA" : String) ∧
    (Auth.GetToken (Auth.NewClient "u" "p") 0 (Except.ok ⟨"tokA", ""⟩)).2.2 = 1 ∧
    (Auth.GetToken (Auth.GetToken (Auth.NewClient "u" "p") 0
        (Except.ok ⟨"tokA", ""⟩)).2.1 100 (Except.error "down")).1
      = Except.ok ("tokA" : String) ∧
    (Auth.GetToken (Auth.GetToken (Auth.NewClient "u" "p") 0
        (Except.ok ⟨"tokA", ""⟩)).2.1 100 (Except.error "down")).2.2 = 0 ∧
    (Auth.GetToken (Auth.GetToken (Auth.NewClient "u" "p") 0
        (Except.ok ⟨"tokA", ""⟩)).2.1 100 (Except.error "down")).2.1
      = (Auth.GetToken (Auth.NewClient "u" "p") 0 (Except.ok ⟨"tokA", ""⟩)).2.1 ∧
    (Auth.GetToken (Auth.GetToken (Auth.NewClient "u" "p") 0
        (Except.ok ⟨"tokA", ""⟩)).2.1 86400 (Except.ok ⟨"tokB", ""⟩)).1
      = Except.ok ("tokB" : String) ∧
    (Auth.GetToken (Auth.GetToken (Auth.NewClient "u" "p") 0
        (Except.ok ⟨"tokA", ""⟩)).2.1 86400 (Except.ok ⟨"tokB", ""⟩)).2.2 = 1 :=
  C3_token_cache (Auth.NewClient "u" "p") 0 100 86400 ⟨"tokA", ""⟩ ⟨"tokB", ""⟩
    (Except.error "down") (by decide) rfl (by decide) rfl (by decide)
    (by decide) (by decide)

/-! ## Theorem for claim C1 -/

/-- Claim C1 is contradicted by the code: every client built by
NewClient carries a TLS configuration with InsecureSkipVerify set to
true, so the requests getSignature and BindPort send through its
httpClient skip certificate verification; the stored CA certificate
path is never consulted.  The theorem evaluates the embedded
constructor, including at the concrete failing input used by the
tests. -/
theorem C1_tls_verification_disabled (token gatewayIP hostname caCertPath : String) :
    (PF.NewClient token gatewayIP hostname
        caCertPath).httpClient.transport.tlsClientConfig.InsecureSkipVerify = true ∧
    (PF.NewClient "test-token" "10.8.0.1" "host.privacy.network"
        "ca.rsa.4096.crt").httpClient.transport.tlsClientConfig.InsecureSkipVerify = true :=
  ⟨rfl, rfl⟩

/-! ## Theorems for claim C5 -/

/-- Claim C5: when the signature response parses, its status equals OK
and its payload field is valid base64 of a JSON object carrying port
and expires_at, GetPortForwarding returns a lease whose Port and
ExpiresAt are the decoded values and whose Payload and Signature are
the raw response fields unmodified; a transport failure, a non-OK
status, an unparsable response, or a payload decode failure each yield
an error instead. -/
theorem C5_lease_assembly (c : PF.Client) (body e : String)
    (obj : List (String × PF.JVal)) (p sg : String) (pd : PF.PayloadData)
    (hobj : PF.parseJsonObject body.data = some obj)
    (hst : PF.jsonStrField obj "status" = Except.ok "OK")
    (hp : PF.jsonStrField obj "payload" = Except.ok p)
    (hsg : PF.jsonStrField obj "signature" = Except.ok sg)
    (hdec : PF.decodePayload p = Except.ok pd) :
    PF.GetPortForwarding c (Except.ok body)
      = Except.ok ⟨pd.Port, pd.ExpiresAt, p, sg⟩ ∧
    exceptOk (PF.GetPortForwarding c (Except.error e)) = false ∧
    (∀ (body2 : String) (obj2 : List (String × PF.JVal)) (st2 : String),
       PF.parseJsonObject body2.data = some obj2 →
       PF.jsonStrField obj2 "status" = Except.ok st2 → st2 ≠ "OK" →
       exceptOk (PF.GetPortForwarding c (Except.ok body2)) = false) ∧
    (∀ body3 : String, PF.parseJsonObject body3.data = none →
       exceptOk (PF.GetPortForwarding c (Except.ok body3)) = false) ∧
    (∀ (body4 : String) (pas4 : PF.PayloadAndSignature) (e4 : String),
       PF.getSignature c (Except.ok body4) = Except.ok pas4 →
       PF.decodePayload pas4.Payload = Except.error e4 →
       exceptOk (PF.GetPortForwarding c (Except.ok body4)) = false) := by
  refine ⟨?_, ?_, ?_, ?_, ?_⟩
  · simp [PF.GetPortForwarding, PF.getSignature, hobj, hst, hp, hsg, hdec]
  · simp [PF.GetPortForwarding, PF.getSignature, exceptOk]
  · intro body2 obj2 st2 hobj2 hst2 hne
    cases hpp : PF.jsonStrField obj2 "payload" <;>
      cases hss : PF.jsonStrField obj2 "signature" <;>
      simp [PF.GetPortForwarding, PF.getSignature, hobj2, hst2, hne, hpp, hss, exceptOk]
  · intro body3 hobj3
    simp [PF.GetPortForwarding, PF.getSignature, hobj3, exceptOk]
  · intro body4 pas4 e4 hsig4 hdec4
    simp [PF.GetPortForwarding, hsig4, hdec4, exceptOk]

/-- Witness for C5 at the example of the specification: a status OK
response whose payload is the base64 of a JSON object with port 12345
and a 2030 expiry, with signature sig1; and a transport failure. -/
theorem C5_witness :
    PF.GetPortForwarding (PF.NewClient "test-token" "10.8.0.1" "host" "ca.rsa.4096.crt")
        (Except.ok "\x7b\"status\":\"OK\",\"payload\":\"eyJwb3J0IjoxMjM0NSwiZXhwaXJlc19hdCI6IjIwMzAtMDEtMDFUMDA6MDA6MDBaIn0=\",\"signature\":\"sig1\"\x7d")
      = Except.ok ⟨12345, "2030-01-01T00:00:00Z",
          "eyJwb3J0IjoxMjM0NSwiZXhwaXJlc19hdCI6IjIwMzAtMDEtMDFUMDA6MDA6MDBaIn0=", "sig1"⟩ ∧
    exceptOk (PF.GetPortForwarding
        (PF.NewClient "test-token" "10.8.0.1" "host" "ca.rsa.4096.crt")
        (Except.error "conn refused")) = false := by
  have h := C5_lease_assembly
    (PF.NewClient "test-token" "10.8.0.1" "host" "ca.rsa.4096.crt")
    "\x7b\"status\":\"OK\",\"payload\":\"eyJwb3J0IjoxMjM0NSwiZXhwaXJlc19hdCI6IjIwMzAtMDEtMDFUMDA6MDA6MDBaIn0=\",\"signature\":\"sig1\"\x7d"
    "conn refused"
    [("status", PF.JVal.jstr "OK"),
     ("payload", PF.JVal.jstr "eyJwb3J0IjoxMjM0NSwiZXhwaXJlc19hdCI6IjIwMzAtMDEtMDFUMDA6MDA6MDBaIn0="),
     ("signature", PF.JVal.jstr "sig1")]
    "eyJwb3J0IjoxMjM0NSwiZXhwaXJlc19hdCI6IjIwMzAtMDEtMDFUMDA6MDA6MDBaIn0=" "sig1"
    ⟨12345, "2030-01-01T00:00:00Z"⟩
    (by decide) (by decide) (by decide) (by decide) (by decide)
  exact ⟨h.1, h.2.1⟩

/-! ## Theorems for claim C9 -/

theorem retry_waits_fixed (interval : Int) (cancelled : Nat → Bool) :
    ∀ (attempts : List (Except String ConnectionInfo)) (k : Nat),
      ∀ w ∈ (Main.detectVPNWithRetry interval cancelled attempts k).waits, w = interval := by
  intro attempts
  induction attempts with
  | nil =>
    intro k w hw
    simp [Main.detectVPNWithRetry] at hw
  | cons r rest ih =>
    intro k w hw
    cases r with
    | ok c => simp [Main.detectVPNWithRetry] at hw
    | error e =>
      by_cases hc : cancelled k = true
      · simp [Main.detectVPNWithRetry, hc] at hw
        exact hw
      · simp only [Bool.not_eq_true] at hc
        simp [Main.detectVPNWithRetry, hc] at hw
        rcases hw with h | h
        · exact h
        · exact ih (k + 1) w h

theorem retry_result_no_cancel (interval : Int) (cancelled : Nat → Bool)
    (hnc : ∀ j, cancelled j = false) :
    ∀ (attempts : List (Except String ConnectionInfo)) (k : Nat),
      (Main.detectVPNWithRetry interval cancelled attempts k).result
        = attempts.find? (fun a => exceptOk a) := by
  intro attempts
  induction attempts with
  | nil => intro k; rfl
  | cons r rest ih =>
    intro k
    cases r with
    | ok c => simp [Main.detectVPNWithRetry, List.find?, exceptOk]
    | error e => simp [Main.detectVPNWithRetry, hnc k, List.find?, exceptOk, ih (k + 1)]

theorem retry_error_means_cancel (interval : Int) (cancelled : Nat → Bool) :
    ∀ (attempts : List (Except String ConnectionInfo)) (k : Nat) (e : String),
      (Main.detectVPNWithRetry interval cancelled attempts k).result
        = some (Except.error e) → ∃ j, cancelled j = true := by
  intro attempts
  induction attempts with
  | nil =>
    intro k e h
    simp [Main.detectVPNWithRetry] at h
  | cons r rest ih =>
    intro k e h
    cases r with
    | ok c => simp [Main.detectVPNWithRetry] at h
    | error msg =>
      by_cases hc : cancelled k = true
      · exact ⟨k, hc⟩
      · simp only [Bool.not_eq_true] at hc
        simp [Main.detectVPNWithRetry, hc] at h
        exact ih (k + 1) e h

theorem retry_prompt_stop (interval : Int) (cancelled : Nat → Bool) :
    ∀ (k : Nat) (attempts : List (Except String ConnectionInfo)) (k0 : Nat),
      k < attempts.length →
      (∀ j, j ≤ k → exceptOk (attempts.getD j (Except.error "")) = false) →
      (∀ j, j < k → cancelled (k0 + j) = false) →
      cancelled (k0 + k) = true →
      (Main.detectVPNWithRetry interval cancelled attempts k0).calls = k + 1 := by
  intro k
  induction k with
  | zero =>
    intro attempts k0 hlen hfail hprev hc
    cases attempts with
    | nil => simp at hlen
    | cons r rest =>
      have h0 := hfail 0 (Nat.le_refl 0)
      cases r with
      | ok c => simp [exceptOk] at h0
      | error e =>
        have hc0 : cancelled k0 = true := by simpa using hc
        simp [Main.detectVPNWithRetry, hc0]
  | succ n ih =>
    intro attempts k0 hlen hfail hprev hc
    cases attempts with
    | nil => simp at hlen
    | cons r rest =>
      have h0 := hfail 0 (by omega)
      cases r with
      | ok c => simp [exceptOk] at h0
      | error e =>
        have hc0 : cancelled k0 = false := by simpa using hprev 0 (by omega)
        have hrec := ih rest (k0 + 1) (by simp at hlen; omega)
          (fun j hj => by simpa using hfail (j + 1) (by omega))
          (fun j hj => by
            have := hprev (j + 1) (by omega)
            rw [show k0 + 1 + j = k0 + (j + 1) from by omega]
            exact this)
          (by
            rw [show k0 + 1 + n = k0 + (n + 1) from by omega]
            exact hc)
        simp [Main.detectVPNWithRetry, hc0, hrec]

/-- Claim C9: detectVPNWithRetry waits the same fixed interval between
attempts (no backoff growth), a run with no cancellation returns the
first successful detection (and keeps calling until one arrives), an
error is returned only when cancellation occurred, and a cancellation
raised during the wait after a failed attempt stops the loop at once,
with no further detection call. -/
theorem C9_detect_with_retry (interval : Int) (cancelled : Nat → Bool)
    (attempts : List (Except String ConnectionInfo)) :
    (∀ w ∈ (Main.detectVPNWithRetry interval cancelled attempts 0).waits, w = interval) ∧
    ((∀ j, cancelled j = false) →
      (Main.detectVPNWithRetry interval cancelled attempts 0).result
        = attempts.find? (fun a => exceptOk a)) ∧
    (∀ e, (Main.detectVPNWithRetry interval cancelled attempts 0).result
        = some (Except.error e) → ∃ j, cancelled j = true) ∧
    (∀ k, k < attempts.length →
      (∀ j, j ≤ k → exceptOk (attempts.getD j (Except.error "")) = false) →
      (∀ j, j < k → cancelled j = false) →
      cancelled k = true →
      (Main.detectVPNWithRetry interval cancelled attempts 0).calls = k + 1) := by
  refine ⟨retry_waits_fixed interval cancelled attempts 0,
    fun hnc => retry_result_no_cancel interval cancelled hnc attempts 0,
    fun e he => retry_error_means_cancel interval cancelled attempts 0 e he,
    fun k hlen hfail hprev hc => ?_⟩
  exact retry_prompt_stop interval cancelled k attempts 0 hlen hfail
    (fun j hj => by simpa using hprev j hj) (by simpa using hc)

/-- Witness for C9: with no cancellation, two failures followed by a
success return that success. -/
theorem C9_witness :
    (Main.detectVPNWithRetry 60 (fun _ => false)
        [Except.error "no tun", Except.error "no tun",
         Except.ok ⟨"10.0.0.1", "test.privacy.network"⟩] 0).result
      = List.find? (fun a => exceptOk a)
          [Except.error "no tun", Except.error "no tun",
           Except.ok ⟨"10.0.0.1", "test.privacy.network"⟩] :=
  (C9_detect_with_retry 60 (fun _ => false)
    [Except.error "no tun", Except.error "no tun",
     Except.ok ⟨"10.0.0.1", "test.privacy.network"⟩]).2.1 (fun _ => rfl)

/-! ## Theorems for claim C4 -/

theorem length_changeFlags (prev : Int) (ports : List Int) :
    (Main.changeFlags prev ports).length = ports.length := by
  induction ports generalizing prev with
  | nil => rfl
  | cons p rest ih => simp [Main.changeFlags, ih]

theorem changeFlags_getD (ports : List Int) :
    ∀ (prev : Int) (j : Nat), j < ports.length →
      (Main.changeFlags prev ports).getD j false
        = decide (ports.getD j 0 ≠ (if j = 0 then prev else ports.getD (j - 1) 0)) := by
  induction ports with
  | nil => intro prev j hj; simp at hj
  | cons p rest ih =>
    intro prev j hj
    cases j with
    | zero => simp [Main.changeFlags]
    | succ k =>
      rw [show Main.changeFlags prev (p :: rest)
        = decide (p ≠ prev) :: Main.changeFlags p rest from rfl]
      rw [List.getD_cons_succ, ih p k (by simpa using hj)]
      cases k with
      | zero => simp
      | succ m => simp

theorem runLoop_flags (inputs : List Main.TickInput) :
    ∀ (s : Main.LoopState),
      (∀ i ∈ inputs, i.bindOK = true ∧ i.writeOK = true) →
      s.initialPort = s.pfInfo.Port →
      s.portChanged = false →
      (Main.runLoop true s inputs).map (fun o => o.scriptRun)
        = Main.changeFlags s.pfInfo.Port ((Main.runLoop true s inputs).map Main.outPort) := by
  induction inputs with
  | nil => intro s hall hinv hflag; rfl
  | cons i rest ih =>
    intro s hall hinv hflag
    obtain ⟨hb, hw⟩ := hall i (List.mem_cons_self i rest)
    have hall2 : ∀ j ∈ rest, j.bindOK = true ∧ j.writeOK = true :=
      fun j hj => hall j (List.mem_cons_of_mem i hj)
    by_cases hexp : i.now + Main.hours24 > s.pfInfo.ExpiresAt
    · cases hres : i.refreshResult with
      | error e =>
        simp only [Main.runLoop, Main.stepTick, Main.refreshPortForwarding,
          if_pos hexp, hres, hb, hw, if_true, List.map_cons, Main.changeFlags,
          Main.outPort, Bool.true_and, Option.getD_some]
        rw [List.cons_eq_cons]
        refine ⟨by simp [hflag], ?_⟩
        exact ih { s with portChanged := false } hall2 hinv rfl
      | ok nw =>
        simp only [Main.runLoop, Main.stepTick, Main.refreshPortForwarding,
          if_pos hexp, hres, hb, hw, if_true, List.map_cons, Main.changeFlags,
          Main.outPort, Bool.true_and, Option.getD_some]
        rw [List.cons_eq_cons]
        constructor
        · rw [hinv]
        · exact ih { pfInfo := nw, initialPort := nw.Port, portChanged := false } hall2 rfl rfl
    · simp only [Main.runLoop, Main.stepTick, if_neg hexp, hb, hw, if_true,
        List.map_cons, Main.changeFlags, Main.outPort, Bool.true_and, Option.getD_some]
      rw [List.cons_eq_cons]
      refine ⟨by simp [hflag], ?_⟩
      exact ih { s with portChanged := false } hall2 hinv rfl

/-- Amended claim C4: in steady-loop runs where a script is configured,
every bind and output write succeeds, and the initial lease is not
already near expiry at the first tick, the script decisions are exactly
the first-tick-then-on-change flags of the bound ports: the first
successful bind triggers the script, a later tick triggers it exactly
when its bound port differs from the previous bound port, and a tick
whose bound port repeats the previous one never retriggers it. -/
theorem C4_steady_loop_hook (lease : Main.SteadyLease) (inputs : List Main.TickInput)
    (hall : ∀ i ∈ inputs, i.bindOK = true ∧ i.writeOK = true)
    (hfirst : ∀ i ∈ inputs.take 1, ¬(i.now + Main.hours24 > lease.ExpiresAt)) :
    (Main.runLoop true (Main.initialState lease) inputs).map (fun o => o.scriptRun)
      = Main.firstAlwaysFlags
          ((Main.runLoop true (Main.initialState lease) inputs).map Main.outPort) ∧
    (∀ j, j + 1 < (Main.runLoop true (Main.initialState lease) inputs).length →
      ((Main.runLoop true (Main.initialState lease) inputs).getD (j + 1)
          ⟨none, none, false⟩).bound
        = ((Main.runLoop true (Main.initialState lease) inputs).getD j
          ⟨none, none, false⟩).bound →
      ((Main.runLoop true (Main.initialState lease) inputs).getD (j + 1)
          ⟨none, none, false⟩).scriptRun = false) := by
  have hmain : (Main.runLoop true (Main.initialState lease) inputs).map (fun o => o.scriptRun)
      = Main.firstAlwaysFlags
          ((Main.runLoop true (Main.initialState lease) inputs).map Main.outPort) := by
    cases inputs with
    | nil => rfl
    | cons i rest =>
      obtain ⟨hb, hw⟩ := hall i (List.mem_cons_self i rest)
      have hall2 : ∀ j ∈ rest, j.bindOK = true ∧ j.writeOK = true :=
        fun j hj => hall j (List.mem_cons_of_mem i hj)
      have hexp : ¬(i.now + Main.hours24 > lease.ExpiresAt) :=
        hfirst i (by simp)
      simp only [Main.runLoop, Main.stepTick, Main.initialState, if_neg hexp, hb, hw,
        if_true, List.map_cons, Main.firstAlwaysFlags, Main.outPort,
        Bool.true_and, Bool.and_true, Option.getD_some]
      rw [List.cons_eq_cons]
      refine ⟨rfl, ?_⟩
      exact runLoop_flags rest
        { pfInfo := lease, initialPort := lease.Port, portChanged := false } hall2 rfl rfl
  refine ⟨hmain, ?_⟩
  intro j hj heq
  have hdflt : (fun o => o.scriptRun) (⟨none, none, false⟩ : Main.TickOutput) = false := rfl
  have h1 : ((Main.runLoop true (Main.initialState lease) inputs).getD (j + 1)
      ⟨none, none, false⟩).scriptRun
      = ((Main.runLoop true (Main.initialState lease) inputs).map
          (fun o => o.scriptRun)).getD (j + 1) false := by
    rw [show (false : Bool)
      = (fun o => o.scriptRun) (⟨none, none, false⟩ : Main.TickOutput) from rfl]
    rw [List.getD_map]
  rw [h1, hmain]
  have hports : ((Main.runLoop true (Main.initialState lease) inputs).map
      Main.outPort).getD (j + 1) 0
      = ((Main.runLoop true (Main.initialState lease) inputs).map
          Main.outPort).getD j 0 := by
    have e1 : ((Main.runLoop true (Main.initialState lease) inputs).map
        Main.outPort).getD (j + 1) 0
        = Main.outPort ((Main.runLoop true (Main.initialState lease) inputs).getD (j + 1)
            ⟨none, none, false⟩) := by
      rw [show (0 : Int) = Main.outPort ⟨none, none, false⟩ from rfl, List.getD_map]
    have e2 : ((Main.runLoop true (Main.initialState lease) inputs).map
        Main.outPort).getD j 0
        = Main.outPort ((Main.runLoop true (Main.initialState lease) inputs).getD j
            ⟨none, none, false⟩) := by
      rw [show (0 : Int) = Main.outPort ⟨none, none, false⟩ from rfl, List.getD_map]
    rw [e1, e2, Main.outPort, Main.outPort, heq]
  set ports := (Main.runLoop true (Main.initialState lease) inputs).map Main.outPort with hpd
  have hlen : j + 1 < ports.length := by
    rw [hpd, List.length_map]
    exact hj
  cases hpp : ports with
  | nil => rw [hpp] at hlen; simp at hlen
  | cons p ps =>
    rw [hpp] at hports hlen
    rw [show Main.firstAlwaysFlags (p :: ps) = true :: Main.changeFlags p ps from rfl]
    rw [List.getD_cons_succ]
    rw [changeFlags_getD ps p j (by simpa using hlen)]
    rw [List.getD_cons_succ] at hports
    cases j with
    | zero =>
      rw [List.getD_cons_zero] at hports
      simp only [List.getD, List.get?_eq_getElem?] at hports ⊢
      simp [hports]
    | succ m =>
      rw [List.getD_cons_succ] at hports
      simp only [List.getD, List.get?_eq_getElem?] at hports ⊢
      simp [hports]

/-- Counterexample to claim C4 as stated: with a hook configured, after
a first tick that binds and writes port 12345, a second tick refreshes
to port 54321, binds it successfully, but its output write fails, so
the hook is not invoked although the newly bound port differs from the
last observed port. -/
theorem C4_counterexample_write_failure :
    (Main.runLoop true
        (Main.initialState ⟨12345, 10000000, "pl", "sig"⟩)
        [⟨0, Except.error "unused", true, true⟩,
         ⟨9950000, Except.ok ⟨54321, 20000000, "pl2", "sig2"⟩, true, false⟩]).map
      (fun o => (o.bound, o.scriptRun))
      = [(some 12345, true), (some 54321, false)] := by
  decide

/-- Witness for C4 at the specification example: ports 12345, 12345,
54321 across three ticks run the hook at the first tick and at the
change, once each. -/
theorem C4_witness :
    (Main.runLoop true
        (Main.initialState ⟨12345, 10000000, "pl", "sig"⟩)
        [⟨0, Except.error "unused", true, true⟩,
         ⟨100, Except.error "unused", true, true⟩,
         ⟨9950000, Except.ok ⟨54321, 20000000, "pl2", "sig2"⟩, true, true⟩]).map
      (fun o => o.scriptRun)
      = Main.firstAlwaysFlags
          ((Main.runLoop true
            (Main.initialState ⟨12345, 10000000, "pl", "sig"⟩)
            [⟨0, Except.error "unused", true, true⟩,
             ⟨100, Except.error "unused", true, true⟩,
             ⟨9950000, Except.ok ⟨54321, 20000000, "pl2", "sig2"⟩, true, true⟩]).map
            Main.outPort) :=
  (C4_steady_loop_hook ⟨12345, 10000000, "pl", "sig"⟩
    [⟨0, Except.error "unused", true, true⟩,
     ⟨100, Except.error "unused", true, true⟩,
     ⟨9950000, Except.ok ⟨54321, 20000000, "pl2", "sig2"⟩, true, true⟩]
    (by decide) (by decide)).1

/-! ## Theorems for claim C2 -/

/-- Counterexample to claim C2: while WritePortToFile replaces the
content 9999 with 12345, an external reader can observe the empty file
left by the truncating open, which is neither the complete previous
content nor the complete new content. -/
theorem C2_counterexample_not_atomic :
    [] ∈ PF.WritePortToFileTrace "9999" 12345 ∧
    ([] : List Char) ≠ ("9999" : String).data ∧
    ([] : List Char) ≠ (PF.goIntString 12345).data := by
  refine ⟨?_, by decide, by decide⟩
  decide

/-- Amended claim C2: a successful write ends with the file holding
exactly the decimal port, but the replacement is in place rather than
atomic; every observable intermediate state is the previous content or
a prefix of the new digits (the empty file included), and a write
failure after the truncating open leaves such a prefix instead of the
previous content. -/
theorem C2_write_in_place (old : String) (port : Int) :
    (PF.WritePortToFileTrace old port).getLast? = some (PF.goIntString port).data ∧
    (PF.WritePortToFileTrace old port).head? = some old.data ∧
    ∀ s ∈ PF.WritePortToFileTrace old port,
      s = old.data ∨ ∃ t : List Char, s ++ t = (PF.goIntString port).data := by
  refine ⟨?_, rfl, ?_⟩
  · have hlast : ((List.range ((PF.goIntString port).data.length + 1)).map
        (fun k => (PF.goIntString port).data.take k)).getLast?
        = some (PF.goIntString port).data := by
      rw [List.range_succ, List.map_append]
      rw [List.getLast?_append_of_ne_nil _ (by simp)]
      simp
    show (old.data :: (List.range ((PF.goIntString port).data.length + 1)).map
        (fun k => (PF.goIntString port).data.take k)).getLast? = _
    rw [show (old.data :: (List.range ((PF.goIntString port).data.length + 1)).map
        (fun k => (PF.goIntString port).data.take k))
        = [old.data] ++ (List.range ((PF.goIntString port).data.length + 1)).map
        (fun k => (PF.goIntString port).data.take k) from rfl]
    rw [List.getLast?_append_of_ne_nil _ (by simp [List.range_succ])]
    exact hlast
  · intro s hs
    simp [PF.WritePortToFileTrace, PF.writeFileStates] at hs
    rcases hs with h | ⟨k, hk, hrfl⟩
    · exact Or.inl h
    · right
      refine ⟨(PF.goIntString port).data.drop k, ?_⟩
      rw [← hrfl]
      exact List.take_append_drop k _

/-- Witness for the amended claim C2: the observable empty state during
the replacement of 9999 by 12345 is a prefix of the new content. -/
theorem C2_witness :
    ([] : List Char) = ("9999" : String).data ∨
    ∃ t : List Char, ([] : List Char) ++ t = (PF.goIntString 12345).data :=
  (C2_write_in_place "9999" 12345).2.2 [] (by decide)

end GoPia
